import Mathlib

/-!
Verification of the APSI example program (`src/main.cpp`): a two-party
Private Set Intersection flow where a Sender holds a private item set and a
Receiver queries for its own items.  The orchestration in `main.cpp` is
embedded directly; the APSI library calls it makes (`insert_or_assign`,
`RunOPRF`, `create_query`, `RunQuery`, `process_result`) are modelled from
the specification of their contracts, since the library source is not part
of this repository.
-/

namespace APSI

/-- Receiver and Sender input values. -/
abbrev Item := String

/-- Modelled from the spec: an OPRF-hashed item identity.  The OPRF
evaluates an item under the Sender's secret key deterministically, so a
hashed identity is determined by the pair (key, item); distinct items give
distinct hashes under the same key. -/
structure HashedItem where
  key : Nat
  item : Item
deriving DecidableEq, Repr

/-- Modelled from the spec: deterministic OPRF evaluation of one item under
the Sender's OPRF key. -/
def oprfEval (key : Nat) (it : Item) : HashedItem := ⟨key, it⟩

/-- Modelled from the spec: the Sender Database holds one OPRF key fixed at
construction, and a set of hashed items (unlabeled protocol). -/
structure SenderDB where
  oprf_key : Nat
  items : List HashedItem
deriving DecidableEq, Repr

/-- Insert a hashed item if it is not already present (upsert of one item
into an unlabeled database). -/
def insertItem (l : List HashedItem) (h : HashedItem) : List HashedItem :=
  if h ∈ l then l else l ++ [h]

/-- Modelled from the spec: `SenderDB::insert_or_assign` - batch upsert of
raw items, each hashed under the database's OPRF key. -/
def insert_or_assign (db : SenderDB) (newItems : List Item) : SenderDB :=
  { db with
    items := newItems.foldl (fun acc it => insertItem acc (oprfEval db.oprf_key it)) db.items }

/-- Modelled from the spec: `Receiver::CreateOPRFReceiver` derives one
blinding factor per input item; the state retains the items in original
order (the blinding math is out of scope). -/
def CreateOPRFReceiver (items : List Item) : List Item := items

/-- Modelled from the spec: `Receiver::CreateOPRFRequest` serializes the
blinded values for transport, in order. -/
def CreateOPRFRequest (state : List Item) : List Item := state

/-- Modelled from the spec: `Sender::RunOPRF` evaluates every blinded value
of the request under the Sender's OPRF key; a pure function of
(request, key). -/
def RunOPRF (request : List Item) (key : Nat) : List HashedItem :=
  request.map (oprfEval key)

/-- Modelled from the spec: `Receiver::ExtractHashes` unblinds the OPRF
response, yielding per-item hashed identities in original item order plus
auxiliary label-key state (trivial in the unlabeled protocol). -/
def ExtractHashes (response : List HashedItem) (state : List Item) :
    List HashedItem × List Unit :=
  (response, state.map fun _ => ())

/-- Modelled from the spec: the Index Translation Table records the original
input count and, for every internal query slot, the list of original input
positions it represents. -/
structure IndexTranslationTable where
  item_count : Nat
  table : List (List Nat)
deriving DecidableEq, Repr

/-- Original positions of `hashed` holding exactly the hashed value `h`. -/
def posnsOf (hashed : List HashedItem) (h : HashedItem) : List Nat :=
  (List.range hashed.length).filter (fun i => decide (hashed[i]? = some h))

/-- Modelled from the spec: `Receiver::create_query` deduplicates identical
hashed items into unique internal query slots and records, for each slot,
the original positions it represents. -/
def create_query (hashed : List HashedItem) :
    List HashedItem × IndexTranslationTable :=
  (hashed.dedup, ⟨hashed.length, hashed.dedup.map (posnsOf hashed)⟩)

/-- Modelled from the spec: a Query Response declares how many Result Part
messages follow. -/
structure QueryResponse where
  package_count : Nat
deriving DecidableEq, Repr

/-- Modelled from the spec: one Result Part carries the encrypted matching
outcome of one internal query slot. -/
structure ResultPart where
  bundle_idx : Nat
  found : Bool
deriving DecidableEq, Repr

/-- The Result Part produced for slot `j` of the query: whether the slot's
hashed item is present in the Sender Database. -/
def bundleFor (queryItems : List HashedItem) (db : SenderDB) (j : Nat) : ResultPart :=
  ⟨j, (queryItems[j]?).any (fun h => decide (h ∈ db.items))⟩

/-- Modelled from the spec: `Sender::RunQuery` evaluates the encrypted query
against the Sender Database and produces a Query Response declaring
`package_count`, followed by exactly that many Result Parts. -/
def RunQuery (queryItems : List HashedItem) (db : SenderDB) :
    QueryResponse × List ResultPart :=
  (⟨queryItems.length⟩, (List.range queryItems.length).map (bundleFor queryItems db))

/-- Modelled from the spec: per original input item, a boolean found flag
(unlabeled protocol, so no label field). -/
structure MatchRecord where
  found : Bool
deriving DecidableEq, Repr

/-- Write verdict `v` at every listed original position. -/
def setPositions (positions : List Nat) (v : Bool) (acc : List (Option Bool)) :
    List (Option Bool) :=
  positions.foldl (fun a i => a.set i (some v)) acc

/-- Scatter one Result Part's outcome back to every original position its
slot represents. -/
def applyPart (itt : IndexTranslationTable) (acc : List (Option Bool))
    (p : ResultPart) : List (Option Bool) :=
  setPositions (itt.table.getD p.bundle_idx []) p.found acc

/-- Modelled from the spec: `Receiver::process_result` scatters each slot's
outcome back to every original input position via the Index Translation
Table; an original position covered by no slot is a fatal
internal-consistency error (`none`), never a silent no-match. -/
def process_result (label_keys : List Unit) (itt : IndexTranslationTable)
    (parts : List ResultPart) : Option (List MatchRecord) :=
  let scattered := parts.foldl (applyPart itt) (List.replicate itt.item_count none)
  let _ := label_keys
  if scattered.all Option.isSome then
    some (scattered.map (fun o => ⟨o.getD false⟩))
  else
    none

/-- Wire requests: OPRF Request or Query Request (tagged union). -/
inductive RequestMsg where
  | oprf (items : List Item)
  | query (queryItems : List HashedItem)
deriving DecidableEq, Repr

/-- Wire responses: OPRF Response or Query Response (tagged union). -/
inductive ResponseMsg where
  | oprf (hashes : List HashedItem)
  | query (resp : QueryResponse)
deriving DecidableEq, Repr

/-- One typed message on the channel stream. -/
inductive Msg where
  | req (r : RequestMsg)
  | resp (r : ResponseMsg)
  | part (p : ResultPart)
deriving DecidableEq, Repr

/-- Errors surfaced by the orchestration. -/
inductive ProtocolError where
  | transportFailure
  | malformedMessage
  | incompleteResult
  | internalConsistency
deriving DecidableEq, Repr

/-- Channel `send`: append one message to the FIFO stream. -/
def send (ch : List Msg) (m : Msg) : List Msg := ch ++ [m]

/-- Channel `receive_operation`: pop the next message, which must be a
request. -/
def receive_operation : List Msg → Except ProtocolError (RequestMsg × List Msg)
  | [] => .error .transportFailure
  | .req r :: rest => .ok (r, rest)
  | _ :: _ => .error .malformedMessage

/-- Channel `receive_response`: pop the next message, which must be a
response. -/
def receive_response : List Msg → Except ProtocolError (ResponseMsg × List Msg)
  | [] => .error .transportFailure
  | .resp r :: rest => .ok (r, rest)
  | _ :: _ => .error .malformedMessage

/-- Channel `receive_result`: pop the next message, which must be a Result
Part; an exhausted stream mid-collection is the incomplete-result failure. -/
def receive_result : List Msg → Except ProtocolError (ResultPart × List Msg)
  | [] => .error .incompleteResult
  | .part p :: rest => .ok (p, rest)
  | _ :: _ => .error .malformedMessage

/-- Conversion `to_oprf_request`: fails on a tag mismatch. -/
def to_oprf_request : RequestMsg → Except ProtocolError (List Item)
  | .oprf items => .ok items
  | _ => .error .malformedMessage

/-- Conversion `to_query_request`: fails on a tag mismatch. -/
def to_query_request : RequestMsg → Except ProtocolError (List HashedItem)
  | .query q => .ok q
  | _ => .error .malformedMessage

/-- Conversion `to_oprf_response`: fails on a tag mismatch. -/
def to_oprf_response : ResponseMsg → Except ProtocolError (List HashedItem)
  | .oprf h => .ok h
  | _ => .error .malformedMessage

/-- Conversion `to_query_response`: fails on a tag mismatch. -/
def to_query_response : ResponseMsg → Except ProtocolError QueryResponse
  | .query q => .ok q
  | _ => .error .malformedMessage

/-- Range of a `uint32_t` counter. -/
def UINT32 : Nat := 2 ^ 32

/-- Post-decrement of a `uint32_t`: subtraction with wraparound modulo
`2^32`. -/
def dec32 (c : Nat) : Nat := (c + UINT32 - 1) % UINT32

theorem dec32_eq_of_pos (c : Nat) (hc : c ≠ 0) : dec32 c = (c - 1) % UINT32 := by
  have h1 : 1 ≤ c := Nat.one_le_iff_ne_zero.mpr hc
  have : c + UINT32 - 1 = (c - 1) + UINT32 := by omega
  simp [dec32, this, Nat.add_mod_right]

theorem dec32_lt (c : Nat) (hc : c ≠ 0) : dec32 c < c := by
  have h1 : 1 ≤ c := Nat.one_le_iff_ne_zero.mpr hc
  calc dec32 c = (c - 1) % UINT32 := dec32_eq_of_pos c hc
    _ ≤ c - 1 := Nat.mod_le _ _
    _ < c := by omega

/-- Outcome of the Receiver's Result Part collection loop: the result (the
collected parts and the remaining stream, or an error), the final value of
the `uint32_t` counter, and the number of completed loop iterations. -/
structure RecvLoopOut where
  res : Except ProtocolError (List ResultPart × List Msg)
  finalCount : Nat
  iters : Nat
deriving Repr

/-- Record one more completed iteration of the collection loop. -/
def bumpIter (o : RecvLoopOut) : RecvLoopOut := ⟨o.res, o.finalCount, o.iters + 1⟩

/-- The Receiver's collection loop from `main.cpp`:
`while (result_part_count--) { result_parts.push_back(channel.receive_result(...)); }`
with the counter decremented as an unsigned 32-bit value after every test,
including the final failing one. -/
def recvLoop (c : Nat) (ch : List Msg) (acc : List ResultPart) : RecvLoopOut :=
  if hc : c = 0 then
    ⟨.ok (acc, ch), dec32 c, 0⟩
  else
    match receive_result ch with
    | .error e => ⟨.error e, dec32 c, 0⟩
    | .ok (p, ch') => bumpIter (recvLoop (dec32 c) ch' (acc ++ [p]))
termination_by c
decreasing_by exact dec32_lt c hc

/-- The Sender items hard-coded in `main.cpp` (`raw_sender_items`). -/
def raw_sender_items : List Item :=
  ["Alice", "Bob", "Charlie", "Daniel", "Eve", "Fazila", "Gilbert"]

/-- The Receiver items hard-coded in `main.cpp` (`raw_receiver_items`). -/
def raw_receiver_items : List Item :=
  ["Amir", "Charlie", "Danny", "Eve"]

/-- Observable channel activity of one protocol session. -/
inductive Event where
  | sendMsg (m : Msg)
  | recvMsg (m : Msg)
deriving DecidableEq, Repr

/-- Does an event carry OPRF protocol traffic? -/
def isOPRFEvent : Event → Bool
  | .sendMsg (.req (.oprf _)) => true
  | .recvMsg (.req (.oprf _)) => true
  | .sendMsg (.resp (.oprf _)) => true
  | .recvMsg (.resp (.oprf _)) => true
  | _ => false

/-- The whole session of `main.cpp`, statement by statement, over a FIFO
channel, with a fault-injection knob: after the Sender has written the Query
Response and its Result Parts, the last `drop` messages of the stream are
lost before the Receiver reads.  `drop = 0` is the unmodified program.
Returns the final Match Records and the trace of channel events. -/
def mainFlowFault (senderRaw receiverRaw : List Item) (key : Nat) (drop : Nat) :
    Except ProtocolError (List MatchRecord × List Event) := do
  let sender_db := insert_or_assign ⟨key, []⟩ senderRaw
  let oprf_receiver := CreateOPRFReceiver receiverRaw
  let request := CreateOPRFRequest oprf_receiver
  let ch := send [] (.req (.oprf request))
  let tr := [Event.sendMsg (.req (.oprf request))]
  let (received_request, ch) ← receive_operation ch
  let tr := tr ++ [Event.recvMsg (.req received_request)]
  let received_oprf_request ← to_oprf_request received_request
  let oprf_response := RunOPRF received_oprf_request sender_db.oprf_key
  let ch := send ch (.resp (.oprf oprf_response))
  let tr := tr ++ [Event.sendMsg (.resp (.oprf oprf_response))]
  let (response, ch) ← receive_response ch
  let tr := tr ++ [Event.recvMsg (.resp response)]
  let oprf_payload ← to_oprf_response response
  let receiver_oprf_items := ExtractHashes oprf_payload oprf_receiver
  let query_data := create_query receiver_oprf_items.1
  let itt := query_data.2
  let ch := send ch (.req (.query query_data.1))
  let tr := tr ++ [Event.sendMsg (.req (.query query_data.1))]
  let (received_request2, ch) ← receive_operation ch
  let tr := tr ++ [Event.recvMsg (.req received_request2)]
  let received_query_request ← to_query_request received_request2
  let query_out := RunQuery received_query_request sender_db
  let ch := send ch (.resp (.query query_out.1))
  let tr := tr ++ [Event.sendMsg (.resp (.query query_out.1))]
  let ch := ch ++ query_out.2.map Msg.part
  let tr := tr ++ query_out.2.map (fun p => Event.sendMsg (.part p))
  let ch := ch.take (ch.length - drop)
  let (response2, ch) ← receive_response ch
  let tr := tr ++ [Event.recvMsg (.resp response2)]
  let query_response ← to_query_response response2
  let result_part_count := query_response.package_count
  match (recvLoop result_part_count ch []).res with
  | .error e => .error e
  | .ok (result_parts, _) =>
    let tr := tr ++ result_parts.map (fun p => Event.recvMsg (.part p))
    match process_result receiver_oprf_items.2 itt result_parts with
    | none => .error .internalConsistency
    | some results => .ok (results, tr)

theorem setPositions_nil (v : Bool) (acc : List (Option Bool)) :
    setPositions [] v acc = acc := rfl

theorem setPositions_cons (p : Nat) (t : List Nat) (v : Bool)
    (acc : List (Option Bool)) :
    setPositions (p :: t) v acc = setPositions t v (acc.set p (some v)) := rfl

theorem setPositions_length (positions : List Nat) (v : Bool) :
    ∀ acc : List (Option Bool), (setPositions positions v acc).length = acc.length := by
  induction positions with
  | nil => intro acc; rfl
  | cons p t ih =>
    intro acc
    rw [setPositions_cons, ih, List.length_set]

theorem setPositions_getElem?_of_not_mem (positions : List Nat) (v : Bool) (i : Nat)
    (hi : i ∉ positions) :
    ∀ acc : List (Option Bool), (setPositions positions v acc)[i]? = acc[i]? := by
  induction positions with
  | nil => intro acc; rfl
  | cons p t ih =>
    intro acc
    rw [setPositions_cons, ih (fun h => hi (List.mem_cons_of_mem p h))]
    refine List.getElem?_set_ne ?_
    intro h
    subst h
    exact hi (List.mem_cons_self p t)

theorem setPositions_getElem?_of_mem (positions : List Nat) (v : Bool) (i : Nat)
    (hmem : i ∈ positions) :
    ∀ acc : List (Option Bool), i < acc.length →
      (setPositions positions v acc)[i]? = some (some v) := by
  induction positions with
  | nil => exact absurd hmem (List.not_mem_nil i)
  | cons p t ih =>
    intro acc hlen
    rw [setPositions_cons]
    by_cases hit : i ∈ t
    · exact ih hit _ (by rw [List.length_set]; exact hlen)
    · have hip : i = p := by
        rcases List.mem_cons.mp hmem with h | h
        · exact h
        · exact absurd h hit
      subst hip
      rw [setPositions_getElem?_of_not_mem t v i hit]
      exact List.getElem?_set_eq_of_lt (some v) hlen

theorem applyPart_length (itt : IndexTranslationTable) (acc : List (Option Bool))
    (p : ResultPart) : (applyPart itt acc p).length = acc.length :=
  setPositions_length _ _ _

theorem scatter_length (itt : IndexTranslationTable) (parts : List ResultPart) :
    ∀ acc : List (Option Bool),
      (parts.foldl (applyPart itt) acc).length = acc.length := by
  induction parts with
  | nil => intro acc; rfl
  | cons p t ih =>
    intro acc
    rw [List.foldl_cons, ih, applyPart_length]

theorem mem_posnsOf (hashed : List HashedItem) (h : HashedItem) (i : Nat) :
    i ∈ posnsOf hashed h ↔ i < hashed.length ∧ hashed[i]? = some h := by
  simp [posnsOf, List.mem_filter, List.mem_range]

theorem create_query_table_getD_of_lt (hashed : List HashedItem) (j : Nat)
    (x : HashedItem) (hj : (hashed.dedup)[j]? = some x) :
    (create_query hashed).2.table.getD j [] = posnsOf hashed x := by
  have := List.getElem?_map (posnsOf hashed) hashed.dedup j
  rw [List.getD_eq_getElem?_getD]
  show ((hashed.dedup.map (posnsOf hashed))[j]?).getD [] = _
  rw [this, hj]
  rfl

theorem create_query_table_getD_of_ge (hashed : List HashedItem) (j : Nat)
    (hj : hashed.dedup.length ≤ j) :
    (create_query hashed).2.table.getD j [] = [] := by
  rw [List.getD_eq_getElem?_getD]
  show ((hashed.dedup.map (posnsOf hashed))[j]?).getD [] = _
  rw [List.getElem?_eq_none (by rw [List.length_map]; exact hj)]
  rfl

theorem bundleFor_found (queryItems : List HashedItem) (db : SenderDB) (j : Nat)
    (x : HashedItem) (hj : queryItems[j]? = some x) :
    bundleFor queryItems db j = ⟨j, decide (x ∈ db.items)⟩ := by
  simp [bundleFor, hj]

theorem scatter_getElem? (hashed : List HashedItem) (db : SenderDB)
    (x : HashedItem) (i j0 : Nat)
    (hx : hashed[i]? = some x)
    (hq : (hashed.dedup)[j0]? = some x) :
    ∀ (js : List Nat) (acc : List (Option Bool)), acc.length = hashed.length →
      ((js.map (bundleFor hashed.dedup db)).foldl (applyPart (create_query hashed).2) acc)[i]? =
        if j0 ∈ js then some (some (decide (x ∈ db.items))) else acc[i]? := by
  intro js
  induction js with
  | nil => intro acc _; simp
  | cons j t ih =>
    intro acc hlen
    have hi : i < hashed.length := (List.getElem?_eq_some.mp hx).1
    rw [List.map_cons, List.foldl_cons]
    by_cases hj : j = j0
    · subst hj
      have hfound : bundleFor hashed.dedup db j = ⟨j, decide (x ∈ db.items)⟩ :=
        bundleFor_found _ db j x hq
      have htbl : (create_query hashed).2.table.getD j [] = posnsOf hashed x :=
        create_query_table_getD_of_lt hashed j x hq
      have hmem : i ∈ posnsOf hashed x := (mem_posnsOf hashed x i).mpr ⟨hi, hx⟩
      have hset : (applyPart (create_query hashed).2 acc (bundleFor hashed.dedup db j))[i]?
          = some (some (decide (x ∈ db.items))) := by
        rw [hfound]
        unfold applyPart
        rw [htbl]
        exact setPositions_getElem?_of_mem _ _ i hmem acc (hlen ▸ hi)
      rw [ih _ (by rw [applyPart_length]; exact hlen)]
      by_cases hjt : j ∈ t
      · simp [hjt]
      · simp [hjt, hset]
    · have hnot : i ∉ (create_query hashed).2.table.getD (bundleFor hashed.dedup db j).bundle_idx [] := by
        show i ∉ (create_query hashed).2.table.getD j []
        by_cases hjlen : j < hashed.dedup.length
        · obtain ⟨y, hy⟩ : ∃ y, (hashed.dedup)[j]? = some y :=
            ⟨hashed.dedup[j], List.getElem?_eq_getElem hjlen⟩
          rw [create_query_table_getD_of_lt hashed j y hy]
          intro hmem
          have hxy : hashed[i]? = some y := ((mem_posnsOf hashed y i).mp hmem).2
          have hyx : y = x := by
            have h2 : some x = some y := hx ▸ hxy
            exact (Option.some.inj h2).symm
          subst hyx
          exact hj (List.getElem?_inj hjlen (List.nodup_dedup hashed) (hy.trans hq.symm))
        · rw [create_query_table_getD_of_ge hashed j (Nat.le_of_not_lt hjlen)]
          exact List.not_mem_nil i
      have hkeep : (applyPart (create_query hashed).2 acc (bundleFor hashed.dedup db j))[i]?
          = acc[i]? := by
        unfold applyPart
        exact setPositions_getElem?_of_not_mem _ _ i hnot acc
      rw [ih _ (by rw [applyPart_length]; exact hlen), hkeep]
      have hne : j0 ∈ j :: t ↔ j0 ∈ t := by
        constructor
        · intro h
          rcases List.mem_cons.mp h with h1 | h1
          · exact absurd h1.symm hj
          · exact h1
        · exact List.mem_cons_of_mem j
      by_cases hj0t : j0 ∈ t
      · rw [if_pos hj0t, if_pos (hne.mpr hj0t)]
      · rw [if_neg hj0t, if_neg (fun h => hj0t (hne.mp h))]

theorem process_result_eq_of_all (lk : List Unit) (itt : IndexTranslationTable)
    (parts : List ResultPart)
    (h : (parts.foldl (applyPart itt) (List.replicate itt.item_count none)).all Option.isSome = true) :
    process_result lk itt parts =
      some ((parts.foldl (applyPart itt) (List.replicate itt.item_count none)).map
        (fun o => ⟨o.getD false⟩)) := by
  unfold process_result
  simp only [h, if_true]

theorem pipeline_correct (hashed : List HashedItem) (db : SenderDB) (lk : List Unit) :
    ∃ records : List MatchRecord,
      process_result lk (create_query hashed).2 ((RunQuery (create_query hashed).1 db).2) = some records ∧
      records.length = hashed.length ∧
      ∀ (i : Nat) (x : HashedItem), hashed[i]? = some x →
        records[i]? = some ⟨decide (x ∈ db.items)⟩ := by
  classical
  have hcount : (create_query hashed).2.item_count = hashed.length := rfl
  have hparts : (RunQuery (create_query hashed).1 db).2 =
      (List.range hashed.dedup.length).map (bundleFor hashed.dedup db) := rfl
  have hlen0 : (List.replicate (create_query hashed).2.item_count (none : Option Bool)).length
      = hashed.length := by
    rw [List.length_replicate, hcount]
  have hslen : (((List.range hashed.dedup.length).map (bundleFor hashed.dedup db)).foldl
      (applyPart (create_query hashed).2)
      (List.replicate (create_query hashed).2.item_count none)).length = hashed.length := by
    rw [scatter_length, hlen0]
  have hchar : ∀ (i : Nat) (x : HashedItem), hashed[i]? = some x →
      (((List.range hashed.dedup.length).map (bundleFor hashed.dedup db)).foldl
        (applyPart (create_query hashed).2)
        (List.replicate (create_query hashed).2.item_count none))[i]?
        = some (some (decide (x ∈ db.items))) := by
    intro i x hx
    have hxm : x ∈ hashed := by
      rw [List.mem_iff_getElem?]; exact ⟨i, hx⟩
    have hxq : x ∈ hashed.dedup := List.mem_dedup.mpr hxm
    obtain ⟨j0, hj0⟩ := List.mem_iff_getElem?.mp hxq
    have hj0lt : j0 < hashed.dedup.length := (List.getElem?_eq_some.mp hj0).1
    have hs := scatter_getElem? hashed db x i j0 hx hj0 (List.range hashed.dedup.length)
      (List.replicate (create_query hashed).2.item_count none) hlen0
    rw [hs, if_pos (List.mem_range.mpr hj0lt)]
  have hsome : ∀ o ∈ ((List.range hashed.dedup.length).map (bundleFor hashed.dedup db)).foldl
      (applyPart (create_query hashed).2)
      (List.replicate (create_query hashed).2.item_count none), o.isSome = true := by
    intro o ho
    obtain ⟨i, hilt, hio⟩ := List.mem_iff_getElem.mp ho
    have hix : i < hashed.length := hslen ▸ hilt
    obtain ⟨x, hx⟩ : ∃ x, hashed[i]? = some x :=
      ⟨hashed[i], List.getElem?_eq_getElem hix⟩
    have hcv := hchar i x hx
    rw [List.getElem?_eq_getElem hilt, hio] at hcv
    rw [Option.some.inj hcv]
    rfl
  have hall := List.all_eq_true.mpr hsome
  refine ⟨(((List.range hashed.dedup.length).map (bundleFor hashed.dedup db)).foldl
      (applyPart (create_query hashed).2)
      (List.replicate (create_query hashed).2.item_count none)).map
        (fun o => ⟨o.getD false⟩), ?_, ?_, ?_⟩
  · rw [hparts]
    exact process_result_eq_of_all lk (create_query hashed).2 _ hall
  · rw [List.length_map, hslen]
  · intro i x hx
    rw [List.getElem?_map, hchar i x hx]
    rfl

theorem dec32_zero : dec32 0 = UINT32 - 1 := by
  unfold dec32
  rw [Nat.zero_add]
  exact Nat.mod_eq_of_lt (Nat.sub_lt (by norm_num [UINT32]) Nat.one_pos)

theorem recvLoop_zero (ch : List Msg) (acc : List ResultPart) :
    recvLoop 0 ch acc = ⟨.ok (acc, ch), dec32 0, 0⟩ := by
  rw [recvLoop]
  simp

theorem recvLoop_error (c : Nat) (hc : c ≠ 0) (ch : List Msg) (acc : List ResultPart)
    (e : ProtocolError) (h : receive_result ch = .error e) :
    recvLoop c ch acc = ⟨.error e, dec32 c, 0⟩ := by
  rw [recvLoop]
  simp [hc, h]

theorem recvLoop_step (c : Nat) (hc : c ≠ 0) (p : ResultPart) (rest : List Msg)
    (acc : List ResultPart) :
    recvLoop c (Msg.part p :: rest) acc =
      bumpIter (recvLoop (dec32 c) rest (acc ++ [p])) := by
  rw [recvLoop]
  simp [hc, receive_result]

theorem recvLoop_exact (parts : List ResultPart) (hlen : parts.length ≤ UINT32) :
    ∀ (rest : List Msg) (acc : List ResultPart),
      recvLoop parts.length (parts.map Msg.part ++ rest) acc =
        ⟨.ok (acc ++ parts, rest), UINT32 - 1, parts.length⟩ := by
  induction parts with
  | nil =>
    intro rest acc
    rw [List.map_nil, List.nil_append, List.length_nil, recvLoop_zero, dec32_zero]
    simp
  | cons p ps ih =>
    intro rest acc
    have hc : (p :: ps).length ≠ 0 := by simp
    rw [List.map_cons, List.cons_append, recvLoop_step _ hc]
    have hdec : dec32 (p :: ps).length = ps.length := by
      rw [dec32_eq_of_pos _ hc]
      simp only [List.length_cons, Nat.add_sub_cancel]
      exact Nat.mod_eq_of_lt (Nat.lt_of_lt_of_le (Nat.lt_succ_self _) (by simpa using hlen))
    have hps : ps.length ≤ UINT32 := by
      have := hlen
      simp only [List.length_cons] at this
      omega
    rw [hdec, ih hps rest (acc ++ [p])]
    simp [bumpIter]

theorem recvLoop_truncated (parts : List ResultPart) :
    ∀ (c : Nat), parts.length < c → c ≤ UINT32 → ∀ acc : List ResultPart,
      (recvLoop c (parts.map Msg.part) acc).res = .error .incompleteResult := by
  induction parts with
  | nil =>
    intro c hlt _ acc
    have hc : c ≠ 0 := by simp at hlt; omega
    rw [List.map_nil, recvLoop_error c hc [] acc .incompleteResult rfl]
  | cons p ps ih =>
    intro c hlt hle acc
    have hc : c ≠ 0 := by simp at hlt; omega
    rw [List.map_cons, recvLoop_step _ hc]
    have hdec : dec32 c = c - 1 := by
      rw [dec32_eq_of_pos _ hc]
      exact Nat.mod_eq_of_lt (by omega)
    rw [bumpIter, hdec]
    have hlt' : ps.length < c - 1 := by simp at hlt; omega
    exact ih (c - 1) hlt' (by omega) _

theorem mem_insertItem {l : List HashedItem} {h a : HashedItem} :
    a ∈ insertItem l h ↔ a ∈ l ∨ a = h := by
  by_cases hm : h ∈ l
  · simp only [insertItem, if_pos hm]
    exact ⟨Or.inl, fun x => x.elim id (fun e => e ▸ hm)⟩
  · simp [insertItem, if_neg hm]

theorem mem_foldl_insert (key : Nat) (xs : List Item) :
    ∀ (acc : List HashedItem) (a : HashedItem),
      a ∈ xs.foldl (fun acc it => insertItem acc (oprfEval key it)) acc ↔
        a ∈ acc ∨ ∃ x ∈ xs, oprfEval key x = a := by
  induction xs with
  | nil => simp
  | cons x t ih =>
    intro acc a
    rw [List.foldl_cons, ih, mem_insertItem]
    simp only [List.mem_cons]
    constructor
    · rintro ((h | h) | ⟨y, hy, hya⟩)
      · exact Or.inl h
      · exact Or.inr ⟨x, Or.inl rfl, h.symm⟩
      · exact Or.inr ⟨y, Or.inr hy, hya⟩
    · rintro (h | ⟨y, (rfl | hy), hya⟩)
      · exact Or.inl (Or.inl h)
      · exact Or.inl (Or.inr hya.symm)
      · exact Or.inr ⟨y, hy, hya⟩

theorem foldl_insert_eq_of_subset (key : Nat) (xs : List Item) :
    ∀ acc : List HashedItem, (∀ x ∈ xs, oprfEval key x ∈ acc) →
      xs.foldl (fun acc it => insertItem acc (oprfEval key it)) acc = acc := by
  induction xs with
  | nil => intro acc _; rfl
  | cons x t ih =>
    intro acc hsub
    have hx : oprfEval key x ∈ acc := hsub x (List.mem_cons_self x t)
    rw [List.foldl_cons, insertItem, if_pos hx]
    exact ih acc (fun y hy => hsub y (List.mem_cons_of_mem x hy))

theorem insert_or_assign_oprf_key (db : SenderDB) (xs : List Item) :
    (insert_or_assign db xs).oprf_key = db.oprf_key := rfl

theorem mem_insert_or_assign (db : SenderDB) (xs : List Item) (a : HashedItem) :
    a ∈ (insert_or_assign db xs).items ↔
      a ∈ db.items ∨ ∃ x ∈ xs, oprfEval db.oprf_key x = a :=
  mem_foldl_insert db.oprf_key xs db.items a

theorem insert_or_assign_idem (db : SenderDB) (xs : List Item) :
    insert_or_assign (insert_or_assign db xs) xs = insert_or_assign db xs := by
  obtain ⟨key, items⟩ := db
  simp only [insert_or_assign]
  congr 1
  apply foldl_insert_eq_of_subset
  intro x hx
  exact (mem_foldl_insert key xs items (oprfEval key x)).mpr (Or.inr ⟨x, hx, rfl⟩)

theorem insert_or_assign_iterate (db : SenderDB) (xs : List Item) (n : Nat) :
    (fun d => insert_or_assign d xs)^[n + 1] db = insert_or_assign db xs := by
  induction n with
  | zero => rfl
  | succ k ih =>
    rw [Function.iterate_succ_apply', ih]
    exact insert_or_assign_idem db xs

/-- The Sender Database as `main.cpp` builds it: fresh database with the
given OPRF key, populated with the Sender's items. -/
def sessionDB (s : List Item) (key : Nat) : SenderDB :=
  insert_or_assign ⟨key, []⟩ s

/-- The Receiver's unblinded OPRF output for its item list `r`. -/
def sessionHashes (r : List Item) (key : Nat) : List HashedItem × List Unit :=
  ExtractHashes (RunOPRF (CreateOPRFRequest (CreateOPRFReceiver r)) key)
    (CreateOPRFReceiver r)

/-- The query and Index Translation Table the Receiver builds in the
session. -/
def sessionQuery (r : List Item) (key : Nat) :
    List HashedItem × IndexTranslationTable :=
  create_query (sessionHashes r key).1

/-- The Result Parts the Sender streams for the session's query. -/
def sessionParts (s r : List Item) (key : Nat) : List ResultPart :=
  (RunQuery (sessionQuery r key).1 (sessionDB s key)).2

/-- The `package_count` the session's Query Response declares. -/
def sessionPC (s r : List Item) (key : Nat) : Nat :=
  (RunQuery (sessionQuery r key).1 (sessionDB s key)).1.package_count

/-- The session's Query Response. -/
def sessionQR (s r : List Item) (key : Nat) : QueryResponse :=
  (RunQuery (sessionQuery r key).1 (sessionDB s key)).1

/-- All channel events of the session before the Receiver starts collecting
Result Parts. -/
def sessionPrefixTrace (s r : List Item) (key : Nat) : List Event :=
  [Event.sendMsg (.req (.oprf (CreateOPRFRequest (CreateOPRFReceiver r)))),
   Event.recvMsg (.req (.oprf (CreateOPRFRequest (CreateOPRFReceiver r)))),
   Event.sendMsg (.resp (.oprf (RunOPRF (CreateOPRFRequest (CreateOPRFReceiver r)) key))),
   Event.recvMsg (.resp (.oprf (RunOPRF (CreateOPRFRequest (CreateOPRFReceiver r)) key))),
   Event.sendMsg (.req (.query (sessionQuery r key).1)),
   Event.recvMsg (.req (.query (sessionQuery r key).1)),
   Event.sendMsg (.resp (.query (sessionQR s r key)))] ++
  (sessionParts s r key).map (fun p => Event.sendMsg (.part p)) ++
  [Event.recvMsg (.resp (.query (sessionQR s r key)))]

theorem sessionQuery_def (r : List Item) (key : Nat) :
    sessionQuery r key = create_query (sessionHashes r key).1 := rfl

theorem sessionParts_def (s r : List Item) (key : Nat) :
    sessionParts s r key = (RunQuery (sessionQuery r key).1 (sessionDB s key)).2 := rfl

theorem sessionPC_eq_length (s r : List Item) (key : Nat) :
    sessionPC s r key = (sessionParts s r key).length := by
  simp [sessionPC, sessionParts, RunQuery]

theorem sessionPC_le_input_length (s r : List Item) (key : Nat) :
    sessionPC s r key ≤ r.length := by
  have h1 : sessionPC s r key = (r.map (oprfEval key)).dedup.length := by
    simp [sessionPC, sessionQuery, sessionHashes, RunQuery]
    rfl
  rw [h1]
  calc (r.map (oprfEval key)).dedup.length ≤ (r.map (oprfEval key)).length :=
        (List.dedup_sublist _).length_le
    _ = r.length := List.length_map _ _

theorem mainFlow_reduction0 (s r : List Item) (key : Nat) :
    mainFlowFault s r key 0 =
      match (recvLoop (sessionPC s r key) ((sessionParts s r key).map Msg.part) []).res with
      | .error e => .error e
      | .ok (result_parts, _) =>
        match process_result (sessionHashes r key).2 (sessionQuery r key).2 result_parts with
        | none => .error .internalConsistency
        | some results =>
          .ok (results,
            sessionPrefixTrace s r key ++ result_parts.map (fun p => Event.recvMsg (.part p))) := by
  unfold mainFlowFault
  simp only [Nat.sub_zero, List.take_length]
  rfl

theorem mainFlow_ok (s r : List Item) (key : Nat)
    (hpc : sessionPC s r key ≤ UINT32) :
    ∃ records : List MatchRecord,
      process_result (sessionHashes r key).2 (sessionQuery r key).2 (sessionParts s r key)
        = some records ∧
      mainFlowFault s r key 0 = .ok (records,
        sessionPrefixTrace s r key ++
          (sessionParts s r key).map (fun p => Event.recvMsg (.part p))) := by
  obtain ⟨records, h1, h2, h3⟩ :=
    pipeline_correct (sessionHashes r key).1 (sessionDB s key) (sessionHashes r key).2
  have hpr : process_result (sessionHashes r key).2 (sessionQuery r key).2 (sessionParts s r key)
      = some records := by
    rw [sessionParts_def, sessionQuery_def]
    exact h1
  refine ⟨records, hpr, ?_⟩
  rw [mainFlow_reduction0 s r key]
  have hple : (sessionParts s r key).length ≤ UINT32 := by
    rw [← sessionPC_eq_length]
    exact hpc
  rw [sessionPC_eq_length, ← List.append_nil ((sessionParts s r key).map Msg.part),
      recvLoop_exact _ hple [] []]
  simp only [List.nil_append, hpr]

theorem flow_bind_ok {α β : Type} (a : α) (f : α → Except ProtocolError β) :
    (Bind.bind (Except.ok a) f : Except ProtocolError β) = f a := rfl

theorem take_cons_sub (m : Msg) (l : List Msg) (d : Nat) (h : d ≤ l.length) :
    (m :: l).take ((m :: l).length - d) = m :: l.take (l.length - d) := by
  simp only [List.length_cons]
  have h2 : l.length + 1 - d = (l.length - d) + 1 := by omega
  rw [h2, List.take_succ_cons]

theorem mainFlow_reduction_drop (s r : List Item) (key : Nat) (d : Nat)
    (hd : d ≤ (sessionParts s r key).length) :
    mainFlowFault s r key d =
      match (recvLoop (sessionPC s r key)
          (((sessionParts s r key).take ((sessionParts s r key).length - d)).map Msg.part) []).res with
      | .error e => .error e
      | .ok (result_parts, _) =>
        match process_result (sessionHashes r key).2 (sessionQuery r key).2 result_parts with
        | none => .error .internalConsistency
        | some results =>
          .ok (results,
            sessionPrefixTrace s r key ++ result_parts.map (fun p => Event.recvMsg (.part p))) := by
  unfold mainFlowFault
  simp only [send, receive_operation, receive_response, to_oprf_request, to_oprf_response,
    to_query_request, to_query_response, flow_bind_ok, List.nil_append, List.cons_append,
    List.singleton_append, List.append_nil]
  rw [take_cons_sub _ _ d (by simpa using hd)]
  simp only [List.length_map]
  rw [← List.map_take]
  rfl

/-- C1: for every non-empty Receiver input sequence, `process_result` on the
session's query returns a MatchRecord sequence whose length equals the
original input length, whose i-th entry is the verdict for the i-th original
input item, regardless of internal deduplication or reordering of the
query. -/
theorem process_result_preserves_input_order (r : List Item) (key : Nat) (db : SenderDB)
    (hne : r ≠ []) :
    ∃ records : List MatchRecord,
      process_result
        (ExtractHashes (RunOPRF (CreateOPRFRequest (CreateOPRFReceiver r)) key)
          (CreateOPRFReceiver r)).2
        (create_query (r.map (oprfEval key))).2
        ((RunQuery (create_query (r.map (oprfEval key))).1 db).2) = some records ∧
      records.length = r.length ∧
      ∀ (i : Nat) (x : Item), r[i]? = some x →
        records[i]? = some ⟨decide (oprfEval key x ∈ db.items)⟩ := by
  obtain ⟨records, h1, h2, h3⟩ := pipeline_correct (r.map (oprfEval key)) db
    (ExtractHashes (RunOPRF (CreateOPRFRequest (CreateOPRFReceiver r)) key)
      (CreateOPRFReceiver r)).2
  refine ⟨records, h1, by rw [h2, List.length_map], ?_⟩
  intro i x hx
  refine h3 i (oprfEval key x) ?_
  rw [List.getElem?_map, hx]
  rfl

/-- C2: with the Sender Database holding Alice, Bob, Charlie, Daniel, Eve,
Fazila, Gilbert and the Receiver querying Amir, Charlie, Danny, Eve, the
program reports the verdicts NOT FOUND, FOUND, NOT FOUND, FOUND in exactly
that order. -/
theorem example_scenario_verdicts :
    ∃ tr : List Event,
      mainFlowFault raw_sender_items raw_receiver_items 0 0 =
        .ok ([⟨false⟩, ⟨true⟩, ⟨false⟩, ⟨true⟩], tr) := by
  obtain ⟨records, hpr, hflow⟩ := mainFlow_ok raw_sender_items raw_receiver_items 0 (by decide)
  have hconc : process_result (sessionHashes raw_receiver_items 0).2
      (sessionQuery raw_receiver_items 0).2 (sessionParts raw_sender_items raw_receiver_items 0)
      = some [⟨false⟩, ⟨true⟩, ⟨false⟩, ⟨true⟩] := by decide
  have hrec : records = [⟨false⟩, ⟨true⟩, ⟨false⟩, ⟨true⟩] :=
    (Option.some.inj (hconc.symm.trans hpr)).symm
  exact ⟨_, by rw [hflow, hrec]⟩

/-- C3: `Sender::RunQuery` produces a Query Response whose `package_count`
field equals the number of Result Parts that follow it, and the Receiver's
collection loop run with that `package_count` collects exactly those Result
Parts off the wire, leaving any later traffic untouched. -/
theorem run_query_package_count_contract (queryItems : List HashedItem) (db : SenderDB)
    (extra : List Msg)
    (hpc : (RunQuery queryItems db).1.package_count ≤ UINT32) :
    (RunQuery queryItems db).1.package_count = (RunQuery queryItems db).2.length ∧
    (recvLoop (RunQuery queryItems db).1.package_count
        ((RunQuery queryItems db).2.map Msg.part ++ extra) []).res =
      .ok ((RunQuery queryItems db).2, extra) := by
  have hlen : (RunQuery queryItems db).1.package_count = (RunQuery queryItems db).2.length := by
    simp [RunQuery]
  refine ⟨hlen, ?_⟩
  rw [hlen, recvLoop_exact _ (by rw [← hlen]; exact hpc) extra []]
  simp

/-- C4: if the Result Part stream is truncated (fewer Result Parts delivered
than the declared `package_count`), the session fails with the Incomplete
Result error; no truncated or garbage MatchRecord sequence is returned. -/
theorem truncated_result_stream_fails_closed (s r : List Item) (key : Nat) (d : Nat)
    (hd1 : 0 < d) (hd2 : d ≤ sessionPC s r key) (hpc : sessionPC s r key ≤ UINT32) :
    mainFlowFault s r key d = .error .incompleteResult := by
  have hdlen : d ≤ (sessionParts s r key).length := by
    rw [← sessionPC_eq_length]
    exact hd2
  rw [mainFlow_reduction_drop s r key d hdlen]
  have hlt : ((sessionParts s r key).take ((sessionParts s r key).length - d)).length
      < sessionPC s r key := by
    rw [List.length_take, sessionPC_eq_length]
    have := Nat.sub_le (sessionParts s r key).length d
    omega
  rw [recvLoop_truncated _ (sessionPC s r key) hlt hpc []]

/-- C5: within one session the OPRF exchange completes as a full round trip
(request sent and received, response sent and received) strictly before the
Query Request is sent; the Query Request sent is built from the unblinded
OPRF hashes, and no OPRF traffic occurs afterwards. -/
theorem oprf_round_trip_before_query_request (s r : List Item) (key : Nat)
    (hr : r.length ≤ UINT32) :
    ∃ (records : List MatchRecord) (rest : List Event),
      mainFlowFault s r key 0 = .ok (records,
        Event.sendMsg (.req (.oprf (CreateOPRFRequest (CreateOPRFReceiver r)))) ::
        Event.recvMsg (.req (.oprf (CreateOPRFRequest (CreateOPRFReceiver r)))) ::
        Event.sendMsg (.resp (.oprf (RunOPRF (CreateOPRFRequest (CreateOPRFReceiver r)) key))) ::
        Event.recvMsg (.resp (.oprf (RunOPRF (CreateOPRFRequest (CreateOPRFReceiver r)) key))) ::
        Event.sendMsg (.req (.query (create_query
          (ExtractHashes (RunOPRF (CreateOPRFRequest (CreateOPRFReceiver r)) key)
            (CreateOPRFReceiver r)).1).1)) ::
        rest) ∧
      (∀ e ∈ rest, isOPRFEvent e = false) := by
  obtain ⟨records, hpr, hflow⟩ :=
    mainFlow_ok s r key (Nat.le_trans (sessionPC_le_input_length s r key) hr)
  refine ⟨records,
    [Event.recvMsg (.req (.query (sessionQuery r key).1)),
     Event.sendMsg (.resp (.query (sessionQR s r key)))] ++
    (sessionParts s r key).map (fun p => Event.sendMsg (.part p)) ++
    [Event.recvMsg (.resp (.query (sessionQR s r key)))] ++
    (sessionParts s r key).map (fun p => Event.recvMsg (.part p)), ?_, ?_⟩
  · rw [hflow]
    simp only [sessionPrefixTrace, sessionQuery, sessionHashes, List.append_assoc,
      List.cons_append, List.nil_append]
  · intro e he
    rcases List.mem_append.mp he with h | h
    · rcases List.mem_append.mp h with h2 | h2
      · rcases List.mem_append.mp h2 with h3 | h3
        · rcases List.mem_cons.mp h3 with h4 | h4
          · subst h4; rfl
          · rcases List.mem_cons.mp h4 with h5 | h5
            · subst h5; rfl
            · exact absurd h5 (List.not_mem_nil e)
        · obtain ⟨p, _, rfl⟩ := List.mem_map.mp h3
          rfl
      · rcases List.mem_cons.mp h2 with h4 | h4
        · subst h4; rfl
        · exact absurd h4 (List.not_mem_nil e)
    · obtain ⟨p, _, rfl⟩ := List.mem_map.mp h
      rfl

/-- C6: inserting an item into the Sender Database via `insert_or_assign`
and then querying for that item over the same database and key always yields
`found = true` at that item's position. -/
theorem insert_then_query_finds_item (db0 : SenderDB) (xs r : List Item) (x : Item)
    (i : Nat) (hx : x ∈ xs) (hi : r[i]? = some x) :
    ∃ records : List MatchRecord,
      process_result
        (ExtractHashes (RunOPRF (CreateOPRFRequest (CreateOPRFReceiver r))
          (insert_or_assign db0 xs).oprf_key) (CreateOPRFReceiver r)).2
        (create_query (r.map (oprfEval (insert_or_assign db0 xs).oprf_key))).2
        ((RunQuery (create_query (r.map (oprfEval (insert_or_assign db0 xs).oprf_key))).1
          (insert_or_assign db0 xs)).2) = some records ∧
      records[i]? = some ⟨true⟩ := by
  obtain ⟨records, h1, h2, h3⟩ :=
    pipeline_correct (r.map (oprfEval (insert_or_assign db0 xs).oprf_key))
      (insert_or_assign db0 xs)
      (ExtractHashes (RunOPRF (CreateOPRFRequest (CreateOPRFReceiver r))
        (insert_or_assign db0 xs).oprf_key) (CreateOPRFReceiver r)).2
  refine ⟨records, h1, ?_⟩
  have hmem : oprfEval (insert_or_assign db0 xs).oprf_key x ∈ (insert_or_assign db0 xs).items := by
    rw [insert_or_assign_oprf_key]
    exact (mem_insert_or_assign db0 xs _).mpr (Or.inr ⟨x, hx, rfl⟩)
  have h4 := h3 i (oprfEval (insert_or_assign db0 xs).oprf_key x)
    (by rw [List.getElem?_map, hi]; rfl)
  rw [h4, decide_eq_true hmem]

/-- C7: `Sender::RunOPRF` is a pure, deterministic function of the pair
(OPRF request, OPRF key): equal requests and equal keys always produce the
identical evaluated OPRF response. -/
theorem run_oprf_deterministic (req1 req2 : List Item) (key1 key2 : Nat)
    (hreq : req1 = req2) (hkey : key1 = key2) :
    RunOPRF req1 key1 = RunOPRF req2 key2 := by
  rw [hreq, hkey]

/-- C8: for a Receiver input containing duplicate items, `create_query`
deduplicates identical hashed items into a single internal query slot (the
query is duplicate-free), and `process_result` still emits one MatchRecord
per original position, all duplicates receiving the same verdict, which is
`found = true` whenever the item is in the Sender set. -/
theorem duplicate_items_one_slot_same_verdict (r : List Item) (key : Nat) (db : SenderDB)
    (hdup : ∃ i j : Nat, i ≠ j ∧ r[i]? ≠ none ∧ r[i]? = r[j]?) :
    (create_query (r.map (oprfEval key))).1.Nodup ∧
    ∃ records : List MatchRecord,
      process_result
        (ExtractHashes (RunOPRF (CreateOPRFRequest (CreateOPRFReceiver r)) key)
          (CreateOPRFReceiver r)).2
        (create_query (r.map (oprfEval key))).2
        ((RunQuery (create_query (r.map (oprfEval key))).1 db).2) = some records ∧
      records.length = r.length ∧
      (∀ i j : Nat, r[i]? = r[j]? → r[i]? ≠ none → records[i]? = records[j]?) ∧
      (∀ (i : Nat) (x : Item), r[i]? = some x → oprfEval key x ∈ db.items →
        records[i]? = some ⟨true⟩) := by
  refine ⟨List.nodup_dedup _, ?_⟩
  obtain ⟨records, h1, h2, h3⟩ := pipeline_correct (r.map (oprfEval key)) db
    (ExtractHashes (RunOPRF (CreateOPRFRequest (CreateOPRFReceiver r)) key)
      (CreateOPRFReceiver r)).2
  refine ⟨records, h1, by rw [h2, List.length_map], ?_, ?_⟩
  · intro i j hij hne
    cases hxo : r[i]? with
    | none => exact absurd hxo hne
    | some x =>
      have hxj : r[j]? = some x := hij.symm.trans hxo
      have hri := h3 i (oprfEval key x) (by rw [List.getElem?_map, hxo]; rfl)
      have hrj := h3 j (oprfEval key x) (by rw [List.getElem?_map, hxj]; rfl)
      rw [hri, hrj]
  · intro i x hx hmem
    have h4 := h3 i (oprfEval key x) (by rw [List.getElem?_map, hx]; rfl)
    rw [h4, decide_eq_true hmem]

/-- C9: `insert_or_assign` is idempotent: inserting the same item batch any
number of further times leaves every subsequent query outcome unchanged
compared to a single insertion. -/
theorem insert_or_assign_idempotent_for_queries (db : SenderDB) (xs : List Item)
    (n : Nat) (q : List HashedItem) :
    RunQuery q ((fun d => insert_or_assign d xs)^[n + 1] db) =
      RunQuery q (insert_or_assign db xs) := by
  rw [insert_or_assign_iterate]

/-- C10: the Receiver's `while (result_part_count--)` loop executes exactly
`package_count` iterations for every `uint32_t` value of the counter; with
counter 0 the body runs zero times, and the unsigned post-decrement
wraparound after the final test (final counter `2^32 - 1`) never causes an
extra iteration. -/
theorem recv_loop_iterates_package_count_times (c : Nat) (parts : List ResultPart)
    (rest : List Msg) (hc : c < UINT32) (hlen : parts.length = c) :
    (recvLoop c (parts.map Msg.part ++ rest) []).iters = c ∧
    (recvLoop c (parts.map Msg.part ++ rest) []).finalCount = UINT32 - 1 ∧
    (recvLoop c (parts.map Msg.part ++ rest) []).res = .ok (parts, rest) := by
  subst hlen
  rw [recvLoop_exact parts (Nat.le_of_lt hc) rest []]
  exact ⟨rfl, rfl, by simp⟩

/-- Witness for C1 at the concrete input `["Eve"]`. -/
theorem process_result_preserves_input_order_witness :
    (["Eve"] : List Item) ≠ [] ∧
    (∃ records : List MatchRecord,
      process_result
        (ExtractHashes (RunOPRF (CreateOPRFRequest (CreateOPRFReceiver ["Eve"])) 0)
          (CreateOPRFReceiver ["Eve"])).2
        (create_query ((["Eve"] : List Item).map (oprfEval 0))).2
        ((RunQuery (create_query ((["Eve"] : List Item).map (oprfEval 0))).1
          (⟨0, [oprfEval 0 "Eve"]⟩ : SenderDB)).2) = some records ∧
      records.length = (["Eve"] : List Item).length ∧
      ∀ (i : Nat) (x : Item), (["Eve"] : List Item)[i]? = some x →
        records[i]? = some ⟨decide (oprfEval 0 x ∈ (⟨0, [oprfEval 0 "Eve"]⟩ : SenderDB).items)⟩) :=
  ⟨by decide,
   process_result_preserves_input_order ["Eve"] 0 ⟨0, [oprfEval 0 "Eve"]⟩ (by decide)⟩

/-- Witness for C3 at a single-slot query. -/
theorem run_query_package_count_contract_witness :
    (RunQuery [oprfEval 0 "Eve"] (⟨0, [oprfEval 0 "Eve"]⟩ : SenderDB)).1.package_count ≤ UINT32 ∧
    ((RunQuery [oprfEval 0 "Eve"] (⟨0, [oprfEval 0 "Eve"]⟩ : SenderDB)).1.package_count =
        (RunQuery [oprfEval 0 "Eve"] (⟨0, [oprfEval 0 "Eve"]⟩ : SenderDB)).2.length ∧
      (recvLoop (RunQuery [oprfEval 0 "Eve"] (⟨0, [oprfEval 0 "Eve"]⟩ : SenderDB)).1.package_count
          ((RunQuery [oprfEval 0 "Eve"] (⟨0, [oprfEval 0 "Eve"]⟩ : SenderDB)).2.map Msg.part ++ []) []).res =
        .ok ((RunQuery [oprfEval 0 "Eve"] (⟨0, [oprfEval 0 "Eve"]⟩ : SenderDB)).2, [])) :=
  ⟨by decide,
   run_query_package_count_contract [oprfEval 0 "Eve"] ⟨0, [oprfEval 0 "Eve"]⟩ [] (by decide)⟩

/-- Witness for C4: dropping one of the declared Result Parts makes the
session fail with the Incomplete Result error. -/
theorem truncated_result_stream_fails_closed_witness :
    0 < 1 ∧ 1 ≤ sessionPC ["Eve"] ["Eve"] 0 ∧ sessionPC ["Eve"] ["Eve"] 0 ≤ UINT32 ∧
    mainFlowFault ["Eve"] ["Eve"] 0 1 = .error .incompleteResult :=
  ⟨by decide, by decide, by decide,
   truncated_result_stream_fails_closed ["Eve"] ["Eve"] 0 1 (by decide) (by decide) (by decide)⟩

/-- Witness for C5 at the concrete session with items `["Eve"]`. -/
theorem oprf_round_trip_before_query_request_witness :
    (["Eve"] : List Item).length ≤ UINT32 ∧
    (∃ (records : List MatchRecord) (rest : List Event),
      mainFlowFault ["Eve"] ["Eve"] 0 0 = .ok (records,
        Event.sendMsg (.req (.oprf (CreateOPRFRequest (CreateOPRFReceiver ["Eve"])))) ::
        Event.recvMsg (.req (.oprf (CreateOPRFRequest (CreateOPRFReceiver ["Eve"])))) ::
        Event.sendMsg (.resp (.oprf (RunOPRF (CreateOPRFRequest (CreateOPRFReceiver ["Eve"])) 0))) ::
        Event.recvMsg (.resp (.oprf (RunOPRF (CreateOPRFRequest (CreateOPRFReceiver ["Eve"])) 0))) ::
        Event.sendMsg (.req (.query (create_query
          (ExtractHashes (RunOPRF (CreateOPRFRequest (CreateOPRFReceiver ["Eve"])) 0)
            (CreateOPRFReceiver ["Eve"])).1).1)) ::
        rest) ∧
      (∀ e ∈ rest, isOPRFEvent e = false)) :=
  ⟨by decide, oprf_round_trip_before_query_request ["Eve"] ["Eve"] 0 (by decide)⟩

/-- Witness for C6: inserting Eve and querying for Eve yields found. -/
theorem insert_then_query_finds_item_witness :
    ("Eve" : Item) ∈ (["Eve"] : List Item) ∧ (["Eve"] : List Item)[0]? = some "Eve" ∧
    (∃ records : List MatchRecord,
      process_result
        (ExtractHashes (RunOPRF (CreateOPRFRequest (CreateOPRFReceiver ["Eve"]))
          (insert_or_assign (⟨0, []⟩ : SenderDB) ["Eve"]).oprf_key) (CreateOPRFReceiver ["Eve"])).2
        (create_query ((["Eve"] : List Item).map
          (oprfEval (insert_or_assign (⟨0, []⟩ : SenderDB) ["Eve"]).oprf_key))).2
        ((RunQuery (create_query ((["Eve"] : List Item).map
          (oprfEval (insert_or_assign (⟨0, []⟩ : SenderDB) ["Eve"]).oprf_key))).1
          (insert_or_assign (⟨0, []⟩ : SenderDB) ["Eve"])).2) = some records ∧
      records[0]? = some ⟨true⟩) :=
  ⟨by decide, by decide,
   insert_then_query_finds_item ⟨0, []⟩ ["Eve"] ["Eve"] "Eve" 0 (by decide) (by decide)⟩

/-- Witness for C7 at a concrete request and key. -/
theorem run_oprf_deterministic_witness :
    (["Eve"] : List Item) = ["Eve"] ∧ (0 : Nat) = 0 ∧
    RunOPRF ["Eve"] 0 = RunOPRF ["Eve"] 0 :=
  ⟨rfl, rfl, run_oprf_deterministic ["Eve"] ["Eve"] 0 0 rfl rfl⟩

/-- Witness for C8 at the duplicate query `["Eve", "Eve"]`. -/
theorem duplicate_items_one_slot_same_verdict_witness :
    (∃ i j : Nat, i ≠ j ∧ (["Eve", "Eve"] : List Item)[i]? ≠ none ∧
      (["Eve", "Eve"] : List Item)[i]? = (["Eve", "Eve"] : List Item)[j]?) ∧
    ((create_query ((["Eve", "Eve"] : List Item).map (oprfEval 0))).1.Nodup ∧
     ∃ records : List MatchRecord,
      process_result
        (ExtractHashes (RunOPRF (CreateOPRFRequest (CreateOPRFReceiver ["Eve", "Eve"])) 0)
          (CreateOPRFReceiver ["Eve", "Eve"])).2
        (create_query ((["Eve", "Eve"] : List Item).map (oprfEval 0))).2
        ((RunQuery (create_query ((["Eve", "Eve"] : List Item).map (oprfEval 0))).1
          (⟨0, [oprfEval 0 "Eve"]⟩ : SenderDB)).2) = some records ∧
      records.length = (["Eve", "Eve"] : List Item).length ∧
      (∀ i j : Nat, (["Eve", "Eve"] : List Item)[i]? = (["Eve", "Eve"] : List Item)[j]? →
        (["Eve", "Eve"] : List Item)[i]? ≠ none → records[i]? = records[j]?) ∧
      (∀ (i : Nat) (x : Item), (["Eve", "Eve"] : List Item)[i]? = some x →
        oprfEval 0 x ∈ (⟨0, [oprfEval 0 "Eve"]⟩ : SenderDB).items →
        records[i]? = some ⟨true⟩)) :=
  ⟨⟨0, 1, by decide, by decide, by decide⟩,
   duplicate_items_one_slot_same_verdict ["Eve", "Eve"] 0 ⟨0, [oprfEval 0 "Eve"]⟩
     ⟨0, 1, by decide, by decide, by decide⟩⟩

/-- Witness for C10 at counter zero: zero iterations, wrapped final
counter. -/
theorem recv_loop_iterates_package_count_times_witness :
    (0 : Nat) < UINT32 ∧ ([] : List ResultPart).length = 0 ∧
    ((recvLoop 0 (([] : List ResultPart).map Msg.part ++ []) []).iters = 0 ∧
     (recvLoop 0 (([] : List ResultPart).map Msg.part ++ []) []).finalCount = UINT32 - 1 ∧
     (recvLoop 0 (([] : List ResultPart).map Msg.part ++ []) []).res = .ok ([], [])) :=
  ⟨by decide, rfl, recv_loop_iterates_package_count_times 0 [] [] (by decide) rfl⟩

end APSI
